import Mathlib

/-!
Verification of the conversion-orchestration core of `ppt_to_pdf.py`
(Office File to PDF Converter).

The Python source is shallowly embedded: the filesystem is a list of
directory entries plus an existence oracle for the output directory, COM
applications are modelled by outcome oracles (each COM call either succeeds
or raises a `COMError` with a message, which is the documented contract of
the `comtypes` binding), and exceptions are modelled with an explicit
`Except` over a Python-exception type.  Logging and the rich progress bar
are modelled as event traces.
-/

namespace PptToPdf

/-- Document family, derived from a file extension: PowerPoint vs Word. -/
inductive Family
  | presentation
  | wordProcessor
deriving DecidableEq

/-- The kind of a planned task: the tuples `('copy', filename)` /
`('convert', filename)` built by `_identify_tasks`. -/
inductive TaskKind
  | copy
  | convert
deriving DecidableEq

/-- A planned task, as produced by `FileConverter._identify_tasks`. -/
structure Task where
  kind : TaskKind
  filename : String
deriving DecidableEq

/-- A directory entry as seen by `input_dir.iterdir()`: a name and whether
the entry is a regular file (`file_path.is_file()`). -/
structure FSEntry where
  name : String
  isFile : Bool
deriving DecidableEq

/-- Python exception values that the embedded code can raise or catch. In
Python 3, `IOError` is an alias of `OSError`, so a single constructor
covers both names. -/
inductive PyExn
  | osError (msg : String)
  | comError (msg : String)
  | runtimeError (msg : String)
  | shutilError (msg : String)
  | valueError (msg : String)
deriving DecidableEq

/-- Decidable equality for `Except` results over the types above. -/
instance {ε α : Type} [DecidableEq ε] [DecidableEq α] :
    DecidableEq (Except ε α) := fun x y =>
  match x, y with
  | .ok a, .ok b =>
    if h : a = b then isTrue (by rw [h]) else
      isFalse (by intro hc; cases hc; exact h rfl)
  | .error a, .error b =>
    if h : a = b then isTrue (by rw [h]) else
      isFalse (by intro hc; cases hc; exact h rfl)
  | .ok _, .error _ => isFalse (by intro hc; cases hc)
  | .error _, .ok _ => isFalse (by intro hc; cases hc)

/-- The message carried by an exception (its `str(e)` rendering). -/
def exnMessage : PyExn → String
  | .osError m => m
  | .comError m => m
  | .runtimeError m => m
  | .shutilError m => m
  | .valueError m => m

/-- Severity of a log line written through `self.logger`. -/
inductive LogLevel
  | info
  | error
deriving DecidableEq

namespace Config

/-- `Config.WD_FORMAT_PDF` -/
def WD_FORMAT_PDF : Nat := 17

/-- `Config.PPT_FORMAT_PDF` -/
def PPT_FORMAT_PDF : Nat := 32

/-- `Config.SUPPORTED_EXTENSIONS` (the frozenset, as a list). -/
def SUPPORTED_EXTENSIONS : List String := [".ppt", ".pptx", ".doc", ".docx"]

/-- `Config.PDF_EXTENSION` -/
def PDF_EXTENSION : String := ".pdf"

/-- `Config.MAX_FILENAME_DISPLAY` -/
def MAX_FILENAME_DISPLAY : Nat := 40

end Config

/-! ### String and path helpers

`pathlib.PurePath.suffix` / `.stem` take the extension from the last dot
of the name, provided that dot is neither the first nor the last
character; `str.lower` lowercases (extensions here are ASCII). -/

/-- Index of the last occurrence of `c` in `cs`, if any (Python
`str.rfind`). -/
def rfindIdx (c : Char) : List Char → Option Nat
  | [] => none
  | x :: xs =>
    match rfindIdx c xs with
    | some i => some (i + 1)
    | none => if x = c then some 0 else none

/-- `PurePath(name).suffix`: the extension from the last dot, empty when
the last dot is leading (hidden files) or trailing. -/
def pathSuffix (name : String) : String :=
  let cs := name.toList
  match rfindIdx '.' cs with
  | none => ""
  | some i => if 0 < i ∧ i + 1 < cs.length then String.mk (cs.drop i) else ""

/-- `PurePath(name).stem`: the name without `pathSuffix`. -/
def pathStem (name : String) : String :=
  let cs := name.toList
  match rfindIdx '.' cs with
  | none => name
  | some i => if 0 < i ∧ i + 1 < cs.length then String.mk (cs.take i) else name

/-- `str.lower` (ASCII, which covers every extension compared):
lowercase every character. -/
def lowerStr (s : String) : String := String.mk (s.toList.map Char.toLower)

/-- `str.endswith`. -/
def strEndsWith (s post : String) : Bool := post.toList.isSuffixOf s.toList

/-- The skip notification logged by `_identify_tasks` when a convert
target already exists (sent at `info` level and echoed to the console,
never as an error). -/
def skipMessage (filename : String) : String :=
  "Skipping conversion for " ++ filename ++ ", PDF already exists."

/-! ### Task planning: `FileConverter._identify_tasks`

`input_dir` and `output_dir` are the resolved directory paths (compared
for equality exactly as `Path` objects are); `output_exists pdfName`
models `(output_dir / pdfName).exists()`. The second component of the
result is the list of skip notifications, in emission order. -/

/-- `FileConverter._identify_tasks`, with the directory listing made
explicit. Returns the task list and the skip-notification log lines. -/
def identify_tasks (entries : List FSEntry) (input_dir output_dir : String)
    (output_exists : String → Bool) : List Task × List String :=
  match entries with
  | [] => ([], [])
  | fp :: rest =>
    let acc := identify_tasks rest input_dir output_dir output_exists
    if fp.isFile = false then acc
    else
      let file_ext := lowerStr (pathSuffix fp.name)
      if file_ext = Config.PDF_EXTENSION then
        if input_dir ≠ output_dir then (⟨.copy, fp.name⟩ :: acc.1, acc.2) else acc
      else if file_ext ∈ Config.SUPPORTED_EXTENSIONS then
        if output_exists (pathStem fp.name ++ Config.PDF_EXTENSION) = false then
          (⟨.convert, fp.name⟩ :: acc.1, acc.2)
        else
          (acc.1, skipMessage fp.name :: acc.2)
      else acc

/-- The task (if any) that the planner emits for one directory entry:
the per-entry branch structure of `_identify_tasks`. -/
def plannedTask (input_dir output_dir : String) (output_exists : String → Bool)
    (fp : FSEntry) : Option Task :=
  if fp.isFile = false then none
  else
    let file_ext := lowerStr (pathSuffix fp.name)
    if file_ext = Config.PDF_EXTENSION then
      if input_dir ≠ output_dir then some ⟨.copy, fp.name⟩ else none
    else if file_ext ∈ Config.SUPPORTED_EXTENSIONS then
      if output_exists (pathStem fp.name ++ Config.PDF_EXTENSION) = false then
        some ⟨.convert, fp.name⟩
      else none
    else none

/-- The skip notification (if any) that the planner logs for one entry. -/
def skipEntry (output_exists : String → Bool) (fp : FSEntry) : Option String :=
  if fp.isFile = false then none
  else
    let file_ext := lowerStr (pathSuffix fp.name)
    if file_ext = Config.PDF_EXTENSION then none
    else if file_ext ∈ Config.SUPPORTED_EXTENSIONS then
      if output_exists (pathStem fp.name ++ Config.PDF_EXTENSION) = false then none
      else some (skipMessage fp.name)
    else none

theorem identify_tasks_eq (entries : List FSEntry) (i o : String)
    (ex : String → Bool) :
    identify_tasks entries i o ex =
      (entries.filterMap (plannedTask i o ex), entries.filterMap (skipEntry ex)) := by
  induction entries with
  | nil => rfl
  | cons fp rest ih =>
    simp only [identify_tasks, ih, plannedTask, skipEntry, List.filterMap_cons]
    by_cases h1 : fp.isFile = false
    · simp [h1]
    · by_cases h2 : lowerStr (pathSuffix fp.name) = Config.PDF_EXTENSION
      · by_cases h3 : i ≠ o
        · simp [h1, h2, h3]
        · simp [h1, h2, h3]
      · by_cases h4 : lowerStr (pathSuffix fp.name) ∈ Config.SUPPORTED_EXTENSIONS
        · by_cases h5 : ex (pathStem fp.name ++ Config.PDF_EXTENSION) = false
          · simp [h1, h2, h4, h5]
          · simp [h1, h2, h4, h5]
        · simp [h1, h2, h4]

/-! ### COM application lifecycle: `_com_applications` / `_cleanup_com_applications`

`comtypes.client.CreateObject` either returns a live application object or
raises; a raised exception escapes the `@contextmanager` body, but the
`finally` clause still runs `_cleanup_com_applications` over the apps
started so far.  `startErr f` / `quitErr f` give the outcome of
`CreateObject` / `app.Quit()` for family `f` (`none` = success). The
best-effort window-minimizing after PowerPoint startup swallows its own
failures and is not observable in the trace. -/

/-- Observable backend lifecycle events. -/
inductive BackendEvent
  | startEvent (f : Family)
  | quitCall (f : Family)
  | quitErrorLog (f : Family) (msg : String)
deriving DecidableEq

/-- `needs_ppt` in `_com_applications`: some convert task names a
PowerPoint file (lowercased name ends with `.ppt` or `.pptx`). -/
def needs_ppt (tasks : List Task) : Bool :=
  tasks.any fun t =>
    t.kind = TaskKind.convert &&
      (strEndsWith (lowerStr t.filename) ".ppt" ||
        strEndsWith (lowerStr t.filename) ".pptx")

/-- `needs_word` in `_com_applications`: some convert task names a Word
file (lowercased name ends with `.doc` or `.docx`). -/
def needs_word (tasks : List Task) : Bool :=
  tasks.any fun t =>
    t.kind = TaskKind.convert &&
      (strEndsWith (lowerStr t.filename) ".doc" ||
        strEndsWith (lowerStr t.filename) ".docx")

/-- The applications `_com_applications` tries to start, in the order the
code starts them (PowerPoint first, then Word). -/
def required_apps (tasks : List Task) : List Family :=
  (if needs_ppt tasks then [Family.presentation] else []) ++
    (if needs_word tasks then [Family.wordProcessor] else [])

/-- Starting the required applications in order: each `CreateObject`
either succeeds (the app is added to `self.apps`) or raises, which stops
the startup sequence; the apps started before the failure remain in
`self.apps`. Returns the started list and the escaped exception, if any. -/
def attempt_starts (required : List Family) (startErr : Family → Option String) :
    List Family × Option PyExn :=
  match required with
  | [] => ([], none)
  | f :: rest =>
    match startErr f with
    | some m => ([], some (.comError m))
    | none =>
      let tail := attempt_starts rest startErr
      (f :: tail.1, tail.2)

/-- `FileConverter._cleanup_com_applications`: iterate over `self.apps`
in insertion order; call `Quit` on each; a `COMError` from one `Quit` is
logged as an error and the loop continues with the next app. -/
def cleanup_com_applications (apps : List Family)
    (quitErr : Family → Option String) : List BackendEvent :=
  match apps with
  | [] => []
  | f :: rest =>
    BackendEvent.quitCall f ::
      ((match quitErr f with
        | some m => [BackendEvent.quitErrorLog f m]
        | none => []) ++ cleanup_com_applications rest quitErr)

/-- The `_com_applications` context manager around a body: start the
required apps, run the body unless startup raised, and in every case run
cleanup on the started apps (the `finally` clause). Returns the backend
event trace and the escaping outcome. -/
def com_applications_scope (tasks : List Task)
    (startErr quitErr : Family → Option String) (body : Except PyExn Unit) :
    List BackendEvent × Except PyExn Unit :=
  let started := attempt_starts (required_apps tasks) startErr
  (started.1.map BackendEvent.startEvent ++
      cleanup_com_applications started.1 quitErr,
    match started.2 with
    | some e => .error e
    | none => body)

/-! ### Task execution: `_copy_file` and `_convert_file`

Each COM document operation (`Open`, `SaveAs`, `Close`) either succeeds
or raises a `COMError` with a message; a `BackendBehavior` records those
outcomes.  `_convert_file` wraps the three steps in a
`try/except (OSError, COMError, RuntimeError)`, `_copy_file` wraps
`shutil.copy2` in a `try/except (shutil.Error, IOError)`.  The embedding
keeps the try-body and the except clause separate so that "never raises
past the boundary" is a statement about `Except`. -/

/-- One COM document call inside `_convert_file`. -/
inductive ComStep
  | openStep
  | saveStep
  | closeStep
deriving DecidableEq

/-- Outcomes of the three COM document calls for one source document:
`none` = the call succeeds, `some m` = it raises `COMError(m)`. -/
structure BackendBehavior where
  openErr : Option String
  saveErr : Option String
  closeErr : Option String
deriving DecidableEq

/-- The `Open` / `SaveAs` / `Close` sequence of `_convert_file`, run until
the first raising call: the Python statements run in order and an
exception transfers control immediately (in particular, a failed `SaveAs`
skips the `Close` statement). Returns the outcome and the calls made. -/
def run_document_steps (b : BackendBehavior) : Except PyExn Unit × List ComStep :=
  match b.openErr with
  | some m => (.error (.comError m), [.openStep])
  | none =>
    match b.saveErr with
    | some m => (.error (.comError m), [.openStep, .saveStep])
    | none =>
      match b.closeErr with
      | some m => (.error (.comError m), [.openStep, .saveStep, .closeStep])
      | none => (.ok (), [.openStep, .saveStep, .closeStep])

/-- The try-block of `_convert_file`: dispatch on the lowercased suffix,
require the family application in `self.apps` (else
`raise RuntimeError`), then run the three document steps against it.
Unsupported suffixes fall through to the success return. `apps f` states
whether family `f` is present in `self.apps`. -/
def convert_body (apps : Family → Bool) (behavior : Family → BackendBehavior)
    (input_name : String) : Except PyExn Unit × List (Family × ComStep) :=
  let file_ext := lowerStr (pathSuffix input_name)
  if file_ext = ".ppt" ∨ file_ext = ".pptx" then
    if apps Family.presentation = false then
      (.error (.runtimeError "PowerPoint application not initialized"), [])
    else
      let r := run_document_steps (behavior Family.presentation)
      (r.1, r.2.map fun s => (Family.presentation, s))
  else if file_ext = ".doc" ∨ file_ext = ".docx" then
    if apps Family.wordProcessor = false then
      (.error (.runtimeError "Word application not initialized"), [])
    else
      let r := run_document_steps (behavior Family.wordProcessor)
      (r.1, r.2.map fun s => (Family.wordProcessor, s))
  else (.ok (), [])

/-- The exception classes named in `_convert_file`'s except clause:
`(OSError, comtypes.COMError, RuntimeError)`. -/
def convert_caught : PyExn → Bool
  | .osError _ => true
  | .comError _ => true
  | .runtimeError _ => true
  | _ => false

/-- The exception classes named in `_copy_file`'s except clause:
`(shutil.Error, IOError)`; `IOError` is `OSError` in Python 3. -/
def copy_caught : PyExn → Bool
  | .shutilError _ => true
  | .osError _ => true
  | _ => false

/-- Result of one task execution: the boolean return value, the log lines
written, and the COM calls made. -/
structure ExecResult where
  ok : Bool
  logs : List (LogLevel × String)
  steps : List (Family × ComStep)
deriving DecidableEq

/-- `FileConverter._convert_file`: the try-body wrapped by the except
clause. A caught exception is logged and turned into `False`; an
uncaught one propagates (`Except.error`). -/
def convert_file (apps : Family → Bool) (behavior : Family → BackendBehavior)
    (input_name : String) : Except PyExn ExecResult :=
  match convert_body apps behavior input_name with
  | (.ok _, steps) =>
    .ok { ok := true, steps := steps,
          logs := [(LogLevel.info,
            "Successfully converted " ++ input_name ++ " to PDF.")] }
  | (.error e, steps) =>
    if convert_caught e then
      .ok { ok := false, steps := steps,
            logs := [(LogLevel.error,
              "Failed to convert " ++ input_name ++ ": " ++ exnMessage e)] }
    else .error e

/-- `FileConverter._copy_file`: `shutil.copy2` either succeeds or raises
(`copy_outcome`); the except clause catches `(shutil.Error, IOError)`,
logs, and returns `False`; anything else propagates. -/
def copy_file (copy_outcome : Option PyExn) (input_name : String) :
    Except PyExn ExecResult :=
  match copy_outcome with
  | none =>
    .ok { ok := true, steps := [],
          logs := [(LogLevel.info,
            "Copied " ++ input_name ++ " to output directory.")] }
  | some e =>
    if copy_caught e then
      .ok { ok := false, steps := [],
            logs := [(LogLevel.error,
              "Could not copy " ++ input_name ++ ": " ++ exnMessage e)] }
    else .error e

/-! ### Sequential processing: `_process_tasks_with_progress`,
`_display_results`, and the orchestrator `process_files`. -/

/-- Observable progress-bar events from `_process_tasks_with_progress`. -/
inductive ProgressEvent
  | descriptionUpdate (s : String)
  | taskRun (t : Task) (ok : Bool)
  | advanceTick
deriving DecidableEq

/-- Truncation of a filename for the progress description:
`filename[:MAX_FILENAME_DISPLAY]`, with a trailing ellipsis when cut. -/
def displayName (filename : String) : String :=
  let d := String.mk (filename.toList.take Config.MAX_FILENAME_DISPLAY)
  if Config.MAX_FILENAME_DISPLAY < filename.toList.length then d ++ "..." else d

/-- The execution environment a run sees inside the backend scope:
which apps are in `self.apps`, the per-file COM behavior, and the
per-file `shutil.copy2` outcome. -/
structure ExecEnv where
  apps : Family → Bool
  behaviorOf : String → Family → BackendBehavior
  copyOutcomeOf : String → Option PyExn

/-- `FileConverter._process_tasks_with_progress`: execute the tasks
strictly in order; each iteration updates the description, runs the task
through `_copy_file` / `_convert_file`, counts a success, and advances
the progress bar by one regardless of the outcome. An exception escaping
an executor (none of the modelled ones does) would abort the loop.
Returns the success count and the progress trace. -/
def process_tasks_with_progress (env : ExecEnv) (tasks : List Task) :
    Except PyExn (Nat × List ProgressEvent) :=
  match tasks with
  | [] => .ok (0, [])
  | t :: rest =>
    let res :=
      match t.kind with
      | .copy => copy_file (env.copyOutcomeOf t.filename) t.filename
      | .convert => convert_file env.apps (env.behaviorOf t.filename) t.filename
    match res with
    | .error e => .error e
    | .ok r =>
      match process_tasks_with_progress env rest with
      | .error e => .error e
      | .ok tail =>
        .ok ((if r.ok then 1 else 0) + tail.1,
          ProgressEvent.descriptionUpdate (displayName t.filename) ::
            ProgressEvent.taskRun t r.ok :: ProgressEvent.advanceTick :: tail.2)

/-- The final counts shown by `_display_results`. -/
structure RunSummary where
  total : Nat
  succeeded : Nat
  failed : Nat
deriving DecidableEq

/-- `FileConverter._display_results`: `failed_count = total_tasks -
success_count`. -/
def display_results (total_tasks success_count : Nat) : RunSummary :=
  { total := total_tasks, succeeded := success_count,
    failed := total_tasks - success_count }

/-- Observable phases of one `process_files` run. -/
inductive RunEvent
  | tasksPlanned (tasks : List Task)
  | noWork
  | backendScope (events : List BackendEvent)
  | summary (s : RunSummary)
deriving DecidableEq

/-- The world a run interacts with: the input directory check, its
listing, the output-existence oracle, and the backend oracles. -/
structure World where
  input_exists : Bool
  input_is_dir : Bool
  entries : List FSEntry
  output_exists : String → Bool
  startErr : Family → Option String
  quitErr : Family → Option String
  behaviorOf : String → Family → BackendBehavior
  copyOutcomeOf : String → Option PyExn

/-- `FileConverter.process_files`: validate the input directory (raising
`ValueError` before anything else), plan, stop at no work, otherwise run
the task loop inside the `_com_applications` scope. Returns the run
trace and the escaping outcome. -/
def process_files (w : World) (input_dir output_dir : String) :
    List RunEvent × Except PyExn Unit :=
  if w.input_exists = false ∨ w.input_is_dir = false then
    ([], .error (.valueError ("Input directory does not exist: " ++ input_dir)))
  else
    let tasks := (identify_tasks w.entries input_dir output_dir w.output_exists).1
    if tasks = [] then ([RunEvent.tasksPlanned tasks, RunEvent.noWork], .ok ())
    else
      let started := attempt_starts (required_apps tasks) w.startErr
      let scopeEvents := started.1.map BackendEvent.startEvent ++
        cleanup_com_applications started.1 w.quitErr
      match started.2 with
      | some e =>
        ([RunEvent.tasksPlanned tasks, RunEvent.backendScope scopeEvents],
          .error e)
      | none =>
        let env : ExecEnv :=
          { apps := fun f => started.1.contains f,
            behaviorOf := w.behaviorOf, copyOutcomeOf := w.copyOutcomeOf }
        match process_tasks_with_progress env tasks with
        | .error e =>
          ([RunEvent.tasksPlanned tasks, RunEvent.backendScope scopeEvents],
            .error e)
        | .ok res =>
          ([RunEvent.tasksPlanned tasks,
            RunEvent.summary (display_results tasks.length res.1),
            RunEvent.backendScope scopeEvents], .ok ())

/-! ### Helper lemmas about the planner -/

theorem supported_ne_pdf :
    ∀ s ∈ Config.SUPPORTED_EXTENSIONS, s ≠ Config.PDF_EXTENSION := by decide

theorem plannedTask_filename {i o : String} {ex : String → Bool} {fp : FSEntry}
    {t : Task} (h : plannedTask i o ex fp = some t) : t.filename = fp.name := by
  simp only [plannedTask] at h
  repeat' split at h
  all_goals first
    | exact Option.noConfusion h
    | (injection h with h; subst h; rfl)

theorem plannedTask_copy_imp_ne {i o : String} {ex : String → Bool} {fp : FSEntry}
    {n : String} (h : plannedTask i o ex fp = some ⟨TaskKind.copy, n⟩) : i ≠ o := by
  simp only [plannedTask] at h
  repeat' split at h
  all_goals first
    | exact Option.noConfusion h
    | assumption
    | (injection h with h; injection h with hk hn; exact TaskKind.noConfusion hk)

theorem name_nodup_inj {entries : List FSEntry}
    (hnodup : (entries.map FSEntry.name).Nodup) {e fp : FSEntry}
    (he : e ∈ entries) (hfp : fp ∈ entries) (hn : e.name = fp.name) : e = fp :=
  List.inj_on_of_nodup_map hnodup he hfp hn

/-- Claim C7: for every regular file of the input listing whose lowercased
extension is in the supported convertible set, the planner emits a Convert
task for it exactly when the computed output file (same stem, `.pdf`
extension) does not already exist; when it exists, no task for that file is
emitted and a skip notification goes to the logging collaborator. -/
theorem C7_convert_iff_output_missing (entries : List FSEntry) (i o : String)
    (ex : String → Bool) (fp : FSEntry) (hmem : fp ∈ entries)
    (hnodup : (entries.map FSEntry.name).Nodup) (hfile : fp.isFile = true)
    (hsup : lowerStr (pathSuffix fp.name) ∈ Config.SUPPORTED_EXTENSIONS) :
    (Task.mk TaskKind.convert fp.name ∈ (identify_tasks entries i o ex).1 ↔
      ex (pathStem fp.name ++ Config.PDF_EXTENSION) = false) ∧
    (ex (pathStem fp.name ++ Config.PDF_EXTENSION) = true →
      Task.mk TaskKind.convert fp.name ∉ (identify_tasks entries i o ex).1 ∧
      skipMessage fp.name ∈ (identify_tasks entries i o ex).2) := by
  have hne : lowerStr (pathSuffix fp.name) ≠ Config.PDF_EXTENSION :=
    supported_ne_pdf _ hsup
  rw [identify_tasks_eq]
  have hiff : Task.mk TaskKind.convert fp.name ∈
      entries.filterMap (plannedTask i o ex) ↔
      ex (pathStem fp.name ++ Config.PDF_EXTENSION) = false := by
    constructor
    · intro hmem2
      rcases List.mem_filterMap.mp hmem2 with ⟨e, he, hpe⟩
      have hn := plannedTask_filename hpe
      have heq : e = fp := name_nodup_inj hnodup he hmem hn.symm
      subst heq
      simp only [plannedTask, hfile, hne, hsup] at hpe
      simp only [Bool.true_eq_false, if_false, if_neg hne, if_pos hsup] at hpe
      by_cases hx : ex (pathStem e.name ++ Config.PDF_EXTENSION) = false
      · exact hx
      · simp [hx] at hpe
    · intro hfalse
      refine List.mem_filterMap.mpr ⟨fp, hmem, ?_⟩
      simp [plannedTask, hfile, hne, hsup, hfalse]
  refine ⟨hiff, fun htrue => ⟨fun hmem2 => ?_, ?_⟩⟩
  · have := hiff.mp hmem2
    rw [htrue] at this
    exact Bool.noConfusion this
  · refine List.mem_filterMap.mpr ⟨fp, hmem, ?_⟩
    simp [skipEntry, hfile, hne, hsup, htrue]

/-- Witness for C7 at a concrete listing: `a.pptx` with its output absent
is planned for conversion. -/
theorem C7_witness :
    Task.mk TaskKind.convert "a.pptx" ∈
      (identify_tasks [⟨"a.pptx", true⟩] "indir" "outdir" fun _ => false).1 :=
  (C7_convert_iff_output_missing [⟨"a.pptx", true⟩] "indir" "outdir"
    (fun _ => false) ⟨"a.pptx", true⟩ (by decide) (by decide) (by decide)
    (by decide)).1.mpr (by decide)

/-- Claim C8: for every regular `.pdf` file of the input listing, the
planner emits a Copy task exactly when the input directory differs from the
output directory; identical directories yield no Copy task. -/
theorem C8_copy_iff_dirs_differ (entries : List FSEntry) (i o : String)
    (ex : String → Bool) (fp : FSEntry) (hmem : fp ∈ entries)
    (hfile : fp.isFile = true)
    (hpdf : lowerStr (pathSuffix fp.name) = Config.PDF_EXTENSION) :
    Task.mk TaskKind.copy fp.name ∈ (identify_tasks entries i o ex).1 ↔ i ≠ o := by
  rw [identify_tasks_eq]
  constructor
  · intro hmem2
    rcases List.mem_filterMap.mp hmem2 with ⟨e, he, hpe⟩
    exact plannedTask_copy_imp_ne hpe
  · intro hneq
    refine List.mem_filterMap.mpr ⟨fp, hmem, ?_⟩
    simp [plannedTask, hfile, hpdf, hneq]

/-- Witness for C8 at a concrete listing: `c.pdf` is planned for copying
when the directories differ. -/
theorem C8_witness :
    Task.mk TaskKind.copy "c.pdf" ∈
      (identify_tasks [⟨"c.pdf", true⟩] "indir" "outdir" fun _ => false).1 :=
  (C8_copy_iff_dirs_differ [⟨"c.pdf", true⟩] "indir" "outdir" (fun _ => false)
    ⟨"c.pdf", true⟩ (by decide) (by decide) (by decide)).mpr (by decide)

/-- A world for the second run over an input holding one already-copied
PDF: the input check passes, every output already exists, and every
backend call would succeed. -/
def c3World : World :=
  { input_exists := true, input_is_dir := true,
    entries := [⟨"c.pdf", true⟩],
    output_exists := fun _ => true,
    startErr := fun _ => none, quitErr := fun _ => none,
    behaviorOf := fun _ _ => ⟨none, none, none⟩,
    copyOutcomeOf := fun _ => none }

/-- Claim C3 is false as stated: after a successful first run on an input
directory holding `c.pdf` (so the copied output exists), the second run's
planner still emits the Copy task again — the plan is not empty and the
run does not take the NoWork path. -/
theorem C3_counterexample :
    (identify_tasks [⟨"c.pdf", true⟩] "indir" "outdir" fun _ => true).1 =
      [⟨TaskKind.copy, "c.pdf"⟩] ∧
    (identify_tasks [⟨"c.pdf", true⟩] "indir" "outdir" fun _ => true).1 ≠ [] ∧
    RunEvent.noWork ∉ (process_files c3World "indir" "outdir").1 := by
  refine ⟨by decide, by decide, by decide⟩

/-- Claim C3 amended: when every convert target already exists (the state
after a successful first run), the second run plans no Convert task; it
plans exactly one Copy task per regular `.pdf` input file whenever the
directories differ, so the plan is empty (NoWork) only if the directories
coincide or no `.pdf` input file is present. -/
theorem C3_amended_second_run_all_copies (entries : List FSEntry) (i o : String)
    (ex : String → Bool) (h : ∀ s, ex s = true) :
    (identify_tasks entries i o ex).1 =
      if i = o then [] else
        (entries.filter fun fp =>
            fp.isFile && decide (lowerStr (pathSuffix fp.name) = Config.PDF_EXTENSION)).map
          fun fp => ⟨TaskKind.copy, fp.name⟩ := by
  rw [identify_tasks_eq]
  dsimp only
  by_cases hio : i = o
  · have hnone : ∀ fp, plannedTask o o ex fp = none := by
      intro fp
      simp [plannedTask, h]
    simp [hio, List.filterMap_eq_nil_iff, hnone]
  · induction entries with
    | nil => simp [hio]
    | cons fp rest ih =>
      rw [if_neg hio] at ih ⊢
      by_cases hf : fp.isFile = false
      · have hhead : plannedTask i o ex fp = none := by simp [plannedTask, hf]
        simp [List.filterMap_cons, List.filter_cons, hhead, hf, ih]
      · have hf' : fp.isFile = true := by
          cases hfi : fp.isFile
          · exact absurd hfi hf
          · rfl
        by_cases hp : lowerStr (pathSuffix fp.name) = Config.PDF_EXTENSION
        · have hhead : plannedTask i o ex fp = some ⟨TaskKind.copy, fp.name⟩ := by
            simp [plannedTask, hf', hp, hio]
          simp [List.filterMap_cons, List.filter_cons, hhead, hf', hp, ih]
        · by_cases hs : lowerStr (pathSuffix fp.name) ∈ Config.SUPPORTED_EXTENSIONS
          · have hhead : plannedTask i o ex fp = none := by
              simp [plannedTask, hf', hp, hs, h]
            simp [List.filterMap_cons, List.filter_cons, hhead, hf', hp, ih]
          · have hhead : plannedTask i o ex fp = none := by
              simp [plannedTask, hf', hp, hs]
            simp [List.filterMap_cons, List.filter_cons, hhead, hf', hp, ih]

/-- Witness for the amended C3: with every output existing, a listing of a
presentation and a PDF plans only the PDF copy. -/
theorem C3_amended_witness :
    (identify_tasks [⟨"a.pptx", true⟩, ⟨"c.pdf", true⟩] "indir2" "outdir2"
        fun _ => true).1 = [⟨TaskKind.copy, "c.pdf"⟩] := by
  rw [C3_amended_second_run_all_copies _ _ _ _ fun _ => rfl]
  decide

/-! ### Claims about the task executor -/

theorem convert_body_exn_caught (apps : Family → Bool)
    (behavior : Family → BackendBehavior) (name : String) {e : PyExn}
    (he : (convert_body apps behavior name).1 = Except.error e) :
    convert_caught e = true := by
  simp only [convert_body, run_document_steps] at he
  repeat' split at he
  all_goals simp_all
  all_goals (subst he; rfl)

/-- Claim C1: for every task and every modelled failure, the executor
never lets an exception past its boundary: `_convert_file` always returns
a boolean (COM calls raise `COMError`, the missing-app check raises
`RuntimeError`, both caught), and `_copy_file` always returns a boolean
provided `shutil.copy2` fails only with its documented kinds
(`shutil.Error` / `IOError`); every `False` comes with the reason logged
at error level. -/
theorem convert_file_ok (apps : Family → Bool)
    (behavior : Family → BackendBehavior) (name : String) :
    ∃ r : ExecResult, convert_file apps behavior name = Except.ok r ∧
      (r.ok = false → ∃ m, (LogLevel.error, m) ∈ r.logs) := by
  rcases hb : convert_body apps behavior name with ⟨res, steps⟩
  cases res with
  | ok u =>
    refine ⟨⟨true,
      [(LogLevel.info, "Successfully converted " ++ name ++ " to PDF.")],
      steps⟩, ?_, fun hfalse => by simp at hfalse⟩
    simp [convert_file, hb]
  | error e =>
    have hc : convert_caught e = true :=
      convert_body_exn_caught apps behavior name (by rw [hb])
    refine ⟨⟨false,
      [(LogLevel.error, "Failed to convert " ++ name ++ ": " ++ exnMessage e)],
      steps⟩, ?_, fun _ =>
        ⟨"Failed to convert " ++ name ++ ": " ++ exnMessage e,
          List.mem_singleton.mpr rfl⟩⟩
    simp [convert_file, hb, hc]

theorem copy_file_ok (copy_outcome : Option PyExn) (name : String)
    (hcopy : ∀ e, copy_outcome = some e → copy_caught e = true) :
    ∃ r : ExecResult, copy_file copy_outcome name = Except.ok r ∧
      (r.ok = false → ∃ m, (LogLevel.error, m) ∈ r.logs) := by
  cases hco : copy_outcome with
  | none =>
    refine ⟨⟨true,
      [(LogLevel.info, "Copied " ++ name ++ " to output directory.")],
      []⟩, ?_, fun hfalse => by simp at hfalse⟩
    simp [copy_file]
  | some e =>
    refine ⟨⟨false,
      [(LogLevel.error, "Could not copy " ++ name ++ ": " ++ exnMessage e)],
      []⟩, ?_, fun _ =>
        ⟨"Could not copy " ++ name ++ ": " ++ exnMessage e,
          List.mem_singleton.mpr rfl⟩⟩
    simp [copy_file, hcopy e hco]

theorem C1_executor_never_raises (apps : Family → Bool)
    (behavior : Family → BackendBehavior) (name : String)
    (copy_outcome : Option PyExn)
    (hcopy : ∀ e, copy_outcome = some e → copy_caught e = true) :
    (∃ r : ExecResult, convert_file apps behavior name = Except.ok r ∧
      (r.ok = false → ∃ m, (LogLevel.error, m) ∈ r.logs)) ∧
    (∃ r : ExecResult, copy_file copy_outcome name = Except.ok r ∧
      (r.ok = false → ∃ m, (LogLevel.error, m) ∈ r.logs)) :=
  ⟨convert_file_ok apps behavior name, copy_file_ok copy_outcome name hcopy⟩

/-- Witness for C1: a convert with no app started (internal
`RuntimeError`) and a copy failing with an I/O error both come back as
captured boolean results. -/
theorem C1_witness :
    (∃ r : ExecResult, convert_file (fun _ => false)
        (fun _ => ⟨none, none, none⟩) "a.pptx" = Except.ok r ∧
      (r.ok = false → ∃ m, (LogLevel.error, m) ∈ r.logs)) ∧
    (∃ r : ExecResult, copy_file (some (PyExn.osError "disk full")) "a.pptx" =
        Except.ok r ∧
      (r.ok = false → ∃ m, (LogLevel.error, m) ∈ r.logs)) :=
  C1_executor_never_raises (fun _ => false) (fun _ => ⟨none, none, none⟩)
    "a.pptx" (some (PyExn.osError "disk full"))
    (fun e he => by injection he with h; subst h; rfl)

/-- The behavior of a backend whose save call raises. -/
def c4Behavior : BackendBehavior := ⟨none, some "save failed", none⟩

/-- Claim C4 is false in its close-best-effort part: at a concrete convert
task whose save step fails, `_convert_file` returns the failure result with
the save reason, but no close call is ever attempted on the open document
(the raised exception transfers control directly to the handler, past the
`Close` statement). -/
theorem C4_counterexample :
    convert_file (fun _ => true) (fun _ => c4Behavior) "a.pptx" =
      Except.ok { ok := false,
                  logs := [(LogLevel.error,
                    "Failed to convert a.pptx: save failed")],
                  steps := [(Family.presentation, ComStep.openStep),
                    (Family.presentation, ComStep.saveStep)] } ∧
    (Family.presentation, ComStep.closeStep) ∉
      [(Family.presentation, ComStep.openStep),
       (Family.presentation, ComStep.saveStep)] ∧
    (Family.wordProcessor, ComStep.closeStep) ∉
      [(Family.presentation, ComStep.openStep),
       (Family.presentation, ComStep.saveStep)] := by
  refine ⟨by decide, by decide, by decide⟩

/-- Claim C4 amended: for a convert task whose family application is
available, a failure at any of the three steps (open, save, close) yields
`ok = false` with the captured reason logged; after a failed save no close
is attempted (the document stays open and the reported reason is the save
error, which a close failure therefore cannot override). -/
theorem C4_amended_step_failures (apps : Family → Bool)
    (behavior : Family → BackendBehavior) (name : String) (fam : Family)
    (hdisp : ((lowerStr (pathSuffix name) = ".ppt" ∨
        lowerStr (pathSuffix name) = ".pptx") ∧ fam = Family.presentation) ∨
      ((lowerStr (pathSuffix name) = ".doc" ∨
        lowerStr (pathSuffix name) = ".docx") ∧ fam = Family.wordProcessor))
    (happ : apps fam = true) (m : String) :
    ((behavior fam).openErr = some m →
      convert_file apps behavior name = Except.ok
        { ok := false,
          logs := [(LogLevel.error, "Failed to convert " ++ name ++ ": " ++ m)],
          steps := [(fam, ComStep.openStep)] }) ∧
    ((behavior fam).openErr = none → (behavior fam).saveErr = some m →
      convert_file apps behavior name = Except.ok
        { ok := false,
          logs := [(LogLevel.error, "Failed to convert " ++ name ++ ": " ++ m)],
          steps := [(fam, ComStep.openStep), (fam, ComStep.saveStep)] }) ∧
    ((behavior fam).openErr = none → (behavior fam).saveErr = none →
      (behavior fam).closeErr = some m →
      convert_file apps behavior name = Except.ok
        { ok := false,
          logs := [(LogLevel.error, "Failed to convert " ++ name ++ ": " ++ m)],
          steps := [(fam, ComStep.openStep), (fam, ComStep.saveStep),
                    (fam, ComStep.closeStep)] }) := by
  have hppt : ∀ s : String, s = ".doc" ∨ s = ".docx" → ¬(s = ".ppt" ∨ s = ".pptx") := by
    rintro s (rfl | rfl) (h | h) <;> simp at h
  rcases hdisp with ⟨hext, hfam⟩ | ⟨hext, hfam⟩ <;> subst hfam
  · refine ⟨fun h1 => ?_, fun h1 h2 => ?_, fun h1 h2 h3 => ?_⟩
    · rcases hext with hext | hext <;>
        simp [convert_file, convert_body, run_document_steps, hext, happ,
          h1, exnMessage, convert_caught]
    · rcases hext with hext | hext <;>
        simp [convert_file, convert_body, run_document_steps, hext, happ,
          h1, h2, exnMessage, convert_caught]
    · rcases hext with hext | hext <;>
        simp [convert_file, convert_body, run_document_steps, hext, happ,
          h1, h2, h3, exnMessage, convert_caught]
  · have hnp := hppt _ hext
    refine ⟨fun h1 => ?_, fun h1 h2 => ?_, fun h1 h2 h3 => ?_⟩
    · rcases hext with hext | hext <;>
        simp [convert_file, convert_body, run_document_steps, hext, hnp, happ,
          h1, exnMessage, convert_caught]
    · rcases hext with hext | hext <;>
        simp [convert_file, convert_body, run_document_steps, hext, hnp, happ,
          h1, h2, exnMessage, convert_caught]
    · rcases hext with hext | hext <;>
        simp [convert_file, convert_body, run_document_steps, hext, hnp, happ,
          h1, h2, h3, exnMessage, convert_caught]

/-- Witness for the amended C4: a Word convert whose save raises (and
whose close would also raise) reports the save failure and makes no close
call. -/
theorem C4_amended_witness :
    convert_file (fun _ => true)
        (fun _ => ⟨none, some "boom", some "close boom"⟩) "b.docx" =
      Except.ok { ok := false,
                  logs := [(LogLevel.error,
                    "Failed to convert b.docx: boom")],
                  steps := [(Family.wordProcessor, ComStep.openStep),
                    (Family.wordProcessor, ComStep.saveStep)] } :=
  (C4_amended_step_failures (fun _ => true)
    (fun _ => ⟨none, some "boom", some "close boom"⟩) "b.docx"
    Family.wordProcessor (Or.inr ⟨Or.inr (by decide), rfl⟩) rfl "boom").2.1 rfl rfl

/-- Claim C10: for an input file whose lowercased extension is in neither
family set, `_convert_file` makes no backend call, logs a success message,
and returns `True`. -/
theorem C10_unsupported_ext_succeeds (apps : Family → Bool)
    (behavior : Family → BackendBehavior) (name : String)
    (h1 : lowerStr (pathSuffix name) ≠ ".ppt")
    (h2 : lowerStr (pathSuffix name) ≠ ".pptx")
    (h3 : lowerStr (pathSuffix name) ≠ ".doc")
    (h4 : lowerStr (pathSuffix name) ≠ ".docx") :
    convert_file apps behavior name = Except.ok
      { ok := true, steps := [],
        logs := [(LogLevel.info,
          "Successfully converted " ++ name ++ " to PDF.")] } := by
  simp [convert_file, convert_body, h1, h2, h3, h4]

/-- Witness for C10 at a text file. -/
theorem C10_witness :
    convert_file (fun _ => true) (fun _ => ⟨some "never", none, none⟩)
        "notes.txt" = Except.ok
      { ok := true, steps := [],
        logs := [(LogLevel.info,
          "Successfully converted notes.txt to PDF.")] } :=
  C10_unsupported_ext_succeeds (fun _ => true)
    (fun _ => ⟨some "never", none, none⟩) "notes.txt"
    (by decide) (by decide) (by decide) (by decide)

/-! ### Claims about the backend lifecycle -/

theorem cleanup_quitCall_count (apps : List Family)
    (quitErr : Family → Option String) (f : Family) :
    (cleanup_com_applications apps quitErr).count (BackendEvent.quitCall f) =
      apps.count f := by
  induction apps with
  | nil => rfl
  | cons g rest ih =>
    by_cases hgf : g = f
    · subst hgf
      cases hq : quitErr g <;>
        simp [cleanup_com_applications, hq, List.count_cons, List.count_append, ih]
    · cases hq : quitErr g <;>
        simp [cleanup_com_applications, hq, List.count_cons, List.count_append,
          ih, hgf]

theorem startEvents_quitCall_count (l : List Family) (f : Family) :
    (l.map BackendEvent.startEvent).count (BackendEvent.quitCall f) = 0 := by
  induction l with
  | nil => rfl
  | cons g rest ih => simp [List.count_cons, ih]

theorem cleanup_quitErrorLog_mem {apps : List Family}
    {quitErr : Family → Option String} {f : Family} {m : String}
    (hf : f ∈ apps) (hq : quitErr f = some m) :
    BackendEvent.quitErrorLog f m ∈ cleanup_com_applications apps quitErr := by
  induction apps with
  | nil => cases hf
  | cons g rest ih =>
    rcases List.mem_cons.mp hf with h | h
    · subst h
      simp [cleanup_com_applications, hq]
    · cases hqg : quitErr g <;> simp [cleanup_com_applications, hqg, ih h]

theorem attempt_starts_sublist (required : List Family)
    (startErr : Family → Option String) :
    (attempt_starts required startErr).1.Sublist required := by
  induction required with
  | nil => exact List.Sublist.refl _
  | cons g rest ih =>
    cases hq : startErr g
    · simpa [attempt_starts, hq] using ih.cons₂ g
    · simp [attempt_starts, hq]

theorem required_apps_nodup (tasks : List Task) : (required_apps tasks).Nodup := by
  unfold required_apps
  cases needs_ppt tasks <;> cases needs_word tasks <;> simp

theorem com_applications_scope_events (tasks : List Task)
    (startErr quitErr : Family → Option String) (body : Except PyExn Unit) :
    (com_applications_scope tasks startErr quitErr body).1 =
      (attempt_starts (required_apps tasks) startErr).1.map BackendEvent.startEvent ++
        cleanup_com_applications
          (attempt_starts (required_apps tasks) startErr).1 quitErr := by
  rfl

/-- Claim C2: for every task list, every start/quit outcome and every body
outcome (including a task raising mid-conversion), each started backend is
quit exactly once on scope exit — backends that never started are never
quit — and a quit failure is logged while the remaining backends are still
quit (the count stays one for each regardless of the quit failures). -/
theorem C2_quit_exactly_once (tasks : List Task)
    (startErr quitErr : Family → Option String) (body : Except PyExn Unit)
    (f : Family) :
    ((com_applications_scope tasks startErr quitErr body).1.count
        (BackendEvent.quitCall f) =
      if f ∈ (attempt_starts (required_apps tasks) startErr).1 then 1 else 0) ∧
    (∀ m, f ∈ (attempt_starts (required_apps tasks) startErr).1 →
      quitErr f = some m →
        BackendEvent.quitErrorLog f m ∈
          (com_applications_scope tasks startErr quitErr body).1) := by
  rw [com_applications_scope_events]
  have hnd : (attempt_starts (required_apps tasks) startErr).1.Nodup :=
    (required_apps_nodup tasks).sublist (attempt_starts_sublist _ _)
  constructor
  · rw [List.count_append, startEvents_quitCall_count, cleanup_quitCall_count]
    by_cases hf : f ∈ (attempt_starts (required_apps tasks) startErr).1
    · rw [if_pos hf]
      simp [List.count_eq_one_of_mem hnd hf]
    · rw [if_neg hf]
      simp [List.count_eq_zero_of_not_mem hf]
  · intro m hf hq
    exact List.mem_append_right _ (cleanup_quitErrorLog_mem hf hq)

/-- Witness for C2: one presentation convert task, the task body raising,
and the quit call itself failing — PowerPoint is still quit exactly once
and the quit failure is logged. -/
theorem C2_witness :
    ((com_applications_scope [⟨TaskKind.convert, "a.pptx"⟩]
        (fun _ => none) (fun _ => some "quit failure")
        (Except.error (PyExn.comError "task failure"))).1.count
      (BackendEvent.quitCall Family.presentation) = 1) ∧
    BackendEvent.quitErrorLog Family.presentation "quit failure" ∈
      (com_applications_scope [⟨TaskKind.convert, "a.pptx"⟩]
        (fun _ => none) (fun _ => some "quit failure")
        (Except.error (PyExn.comError "task failure"))).1 := by
  have h := C2_quit_exactly_once [⟨TaskKind.convert, "a.pptx"⟩]
    (fun _ => none) (fun _ => some "quit failure")
    (Except.error (PyExn.comError "task failure")) Family.presentation
  refine ⟨?_, h.2 "quit failure" (by decide) rfl⟩
  rw [h.1]
  decide

theorem attempt_starts_all_ok (required : List Family)
    (startErr : Family → Option String) (h : ∀ f, startErr f = none) :
    attempt_starts required startErr = (required, none) := by
  induction required with
  | nil => rfl
  | cons g rest ih => simp [attempt_starts, h g, ih]

theorem needs_ppt_iff (tasks : List Task) :
    needs_ppt tasks = true ↔
      ∃ t ∈ tasks, t.kind = TaskKind.convert ∧
        (strEndsWith (lowerStr t.filename) ".ppt" = true ∨
         strEndsWith (lowerStr t.filename) ".pptx" = true) := by
  simp [needs_ppt, List.any_eq_true]

theorem needs_word_iff (tasks : List Task) :
    needs_word tasks = true ↔
      ∃ t ∈ tasks, t.kind = TaskKind.convert ∧
        (strEndsWith (lowerStr t.filename) ".doc" = true ∨
         strEndsWith (lowerStr t.filename) ".docx" = true) := by
  simp [needs_word, List.any_eq_true]

theorem mem_required_apps_presentation (tasks : List Task) :
    Family.presentation ∈ required_apps tasks ↔ needs_ppt tasks = true := by
  unfold required_apps
  cases hp : needs_ppt tasks <;> cases hw : needs_word tasks <;> simp

theorem mem_required_apps_word (tasks : List Task) :
    Family.wordProcessor ∈ required_apps tasks ↔ needs_word tasks = true := by
  unfold required_apps
  cases hp : needs_ppt tasks <;> cases hw : needs_word tasks <;> simp

/-- Claim C5: when startup succeeds, the set of started backends is
exactly the set of document families occurring among the Convert tasks
(by the lowercased-name suffix test the code uses); a task list of only
Copy tasks starts no backend. -/
theorem C5_started_eq_convert_families (tasks : List Task)
    (startErr : Family → Option String) (h : ∀ f, startErr f = none) :
    ((Family.presentation ∈ (attempt_starts (required_apps tasks) startErr).1 ↔
        ∃ t ∈ tasks, t.kind = TaskKind.convert ∧
          (strEndsWith (lowerStr t.filename) ".ppt" = true ∨
           strEndsWith (lowerStr t.filename) ".pptx" = true)) ∧
      (Family.wordProcessor ∈ (attempt_starts (required_apps tasks) startErr).1 ↔
        ∃ t ∈ tasks, t.kind = TaskKind.convert ∧
          (strEndsWith (lowerStr t.filename) ".doc" = true ∨
           strEndsWith (lowerStr t.filename) ".docx" = true))) ∧
    ((∀ t ∈ tasks, t.kind = TaskKind.copy) →
      (attempt_starts (required_apps tasks) startErr).1 = []) := by
  rw [attempt_starts_all_ok _ _ h]
  refine ⟨⟨?_, ?_⟩, ?_⟩
  · rw [mem_required_apps_presentation, needs_ppt_iff]
  · rw [mem_required_apps_word, needs_word_iff]
  · intro hcopy
    have hp : needs_ppt tasks = false := by
      rw [← Bool.not_eq_true, needs_ppt_iff]
      rintro ⟨t, ht, hk, _⟩
      rw [hcopy t ht] at hk
      exact TaskKind.noConfusion hk
    have hw : needs_word tasks = false := by
      rw [← Bool.not_eq_true, needs_word_iff]
      rintro ⟨t, ht, hk, _⟩
      rw [hcopy t ht] at hk
      exact TaskKind.noConfusion hk
    simp [required_apps, hp, hw]

/-- Witness for C5: a presentation convert plus a PDF copy start exactly
the PowerPoint backend. -/
theorem C5_witness :
    Family.presentation ∈
      (attempt_starts (required_apps
        [⟨TaskKind.convert, "a.pptx"⟩, ⟨TaskKind.copy, "c.pdf"⟩])
        fun _ => none).1 :=
  ((C5_started_eq_convert_families
    [⟨TaskKind.convert, "a.pptx"⟩, ⟨TaskKind.copy, "c.pdf"⟩]
    (fun _ => none) fun _ => rfl).1.1).mpr
    ⟨⟨TaskKind.convert, "a.pptx"⟩, by decide, by decide⟩

/-! ### Claims about the sequential task loop and the orchestrator -/

/-- Claim C6: tasks are executed strictly sequentially in planned order
(the run trace lists one execution per task, in order), the progress
counter is advanced exactly once per task regardless of outcome, a failing
task never prevents the later ones from running, the success count never
exceeds the total, and the final summary reports failed = total minus
succeeded. -/
theorem C6_sequential_execution (env : ExecEnv) (tasks : List Task)
    (hcopy : ∀ n e, env.copyOutcomeOf n = some e → copy_caught e = true) :
    ∃ cnt evs, process_tasks_with_progress env tasks = Except.ok (cnt, evs) ∧
      evs.filterMap (fun ev => match ev with
        | ProgressEvent.taskRun t _ => some t
        | _ => none) = tasks ∧
      evs.count ProgressEvent.advanceTick = tasks.length ∧
      cnt ≤ tasks.length ∧
      (display_results tasks.length cnt).failed = tasks.length - cnt := by
  induction tasks with
  | nil => exact ⟨0, [], rfl, rfl, rfl, Nat.le_refl 0, rfl⟩
  | cons t rest ih =>
    rcases ih with ⟨cnt, evs, hrun, hproj, hcount, hle, _⟩
    have hexec : ∃ r, (match t.kind with
        | TaskKind.copy => copy_file (env.copyOutcomeOf t.filename) t.filename
        | TaskKind.convert =>
          convert_file env.apps (env.behaviorOf t.filename) t.filename) =
        Except.ok r := by
      cases t.kind
      · rcases copy_file_ok (env.copyOutcomeOf t.filename) t.filename
          (hcopy t.filename) with ⟨r, hr, _⟩
        exact ⟨r, hr⟩
      · rcases convert_file_ok env.apps (env.behaviorOf t.filename) t.filename
          with ⟨r, hr, _⟩
        exact ⟨r, hr⟩
    rcases hexec with ⟨r, hr⟩
    refine ⟨(if r.ok then 1 else 0) + cnt,
      ProgressEvent.descriptionUpdate (displayName t.filename) ::
        ProgressEvent.taskRun t r.ok :: ProgressEvent.advanceTick :: evs,
      ?_, ?_, ?_, ?_, rfl⟩
    · simp only [process_tasks_with_progress, hr, hrun]
    · simp [List.filterMap_cons, hproj]
    · simp [List.count_cons, hcount]
    · cases hok : r.ok <;> simp <;> omega

/-- The environment for the C6 witness: every app available, `bad.pptx`
failing at its save step, all other operations succeeding. -/
def c6Env : ExecEnv :=
  { apps := fun _ => true,
    behaviorOf := fun n _ =>
      if n = "bad.pptx" then ⟨none, some "save exploded", none⟩
      else ⟨none, none, none⟩,
    copyOutcomeOf := fun _ => none }

/-- The three tasks of the C6 witness: the middle one fails to save. -/
def c6Tasks : List Task :=
  [⟨TaskKind.convert, "good.pptx"⟩, ⟨TaskKind.convert, "bad.pptx"⟩,
   ⟨TaskKind.copy, "c.pdf"⟩]

/-- Witness for C6: three tasks with the middle one failing still all
execute, with three progress advances. -/
theorem C6_witness :
    ∃ cnt evs, process_tasks_with_progress c6Env c6Tasks = Except.ok (cnt, evs) ∧
      evs.filterMap (fun ev => match ev with
        | ProgressEvent.taskRun t _ => some t
        | _ => none) = c6Tasks ∧
      evs.count ProgressEvent.advanceTick = c6Tasks.length ∧
      cnt ≤ c6Tasks.length ∧
      (display_results c6Tasks.length cnt).failed = c6Tasks.length - cnt :=
  C6_sequential_execution c6Env c6Tasks (fun _ _ he => Option.noConfusion he)

/-- Claim C9: when the input path does not exist or is not a directory,
`process_files` raises `ValueError` to the caller with an empty run trace:
no planning, no task execution and no backend startup has happened. -/
theorem C9_invalid_input_aborts_first (w : World) (input_dir output_dir : String)
    (h : w.input_exists = false ∨ w.input_is_dir = false) :
    process_files w input_dir output_dir =
      ([], Except.error (PyExn.valueError
        ("Input directory does not exist: " ++ input_dir))) := by
  unfold process_files
  rw [if_pos h]

/-- A world whose input path is missing. -/
def c9World : World :=
  { input_exists := false, input_is_dir := true,
    entries := [⟨"a.pptx", true⟩],
    output_exists := fun _ => false,
    startErr := fun _ => none, quitErr := fun _ => none,
    behaviorOf := fun _ _ => ⟨none, none, none⟩,
    copyOutcomeOf := fun _ => none }

/-- Witness for C9 at a missing input directory. -/
theorem C9_witness :
    process_files c9World "missing" "outdir" =
      ([], Except.error (PyExn.valueError
        ("Input directory does not exist: " ++ "missing"))) :=
  C9_invalid_input_aborts_first c9World "missing" "outdir" (Or.inl rfl)

end PptToPdf
